import Mathlib

/-!
Verification development for the TPS13A SAXS Calculator engine
(`js/protein.js`, `js/calculations.js`).

Modelling conventions, used throughout:
* JavaScript numbers are modelled as exact rationals (`ℚ`); the claims of the
  specification are stated at the level of ideal (real) arithmetic.
* `Math.log` / `Math.exp` are transcendental and have no exact rational
  counterpart; functions that call them take the interpretation as an explicit
  function parameter (`jsLog`, `jsExp`).  Every theorem quantifies over that
  parameter (or holds for any interpretation), so each result applies in
  particular to the actual `Math.log` / `Math.exp`.
* A JavaScript expression whose value can be `NaN` (missing input propagated
  through arithmetic) is modelled as `Option ℚ` with `none` standing for
  `NaN`/`undefined`; see the `JSNum` operations below.
* `x.toFixed(d)` followed by `parseFloat` is modelled by rounding to `d`
  decimals (ties away from zero toward +∞, as the `toFixed` specification
  prescribes); `Math.round` is `⌊x + 1/2⌋`; `Math.ceil` is `⌈x⌉`.
* Fields of returned records that are pure images of other fields under
  transcendental functions (`I0 = exp(intercept)`, `Rg = sqrt(-3*slope)`,
  `qRgMax`) are represented by the data that determines them (`intercept`,
  `slope`) together with, for `Rg`, the Boolean `rgIsNaN` that records whether
  the `Rg` field of the JavaScript record is `NaN`: that happens when the
  slope itself is `NaN` (the regression quotient is `0/0` — all selected `q`
  coincide, so both the denominator `n·Σx²−(Σx)²` and the numerator vanish),
  or when `Math.sqrt` receives a negative argument (`-3*slope < 0`).  The
  `slope`, `intercept` and `r2` fields of the Guinier success record are
  therefore `Option ℚ` with `none` standing for `NaN`.
-/

/-! ## JavaScript number helpers -/

/-- `Math.round x` for a finite JavaScript number: round half toward +∞. -/
def jsRound (x : ℚ) : ℤ := ⌊x + 1 / 2⌋

/-- `parseFloat(x.toFixed d)`: round to `d` decimal places (ties toward +∞,
as specified for `Number.prototype.toFixed`). -/
def qToFixed (d : ℕ) (x : ℚ) : ℚ := (jsRound (x * 10 ^ d) : ℚ) / 10 ^ d

/-- JavaScript numbers including the `NaN` produced by arithmetic on a missing
(`undefined`) input: `none` stands for `NaN`. -/
abbrev JSNum := Option ℚ

/-- Lift a numeric literal. -/
def nnum (q : ℚ) : JSNum := some q

/-- `+` with `NaN` propagation. -/
def nadd : JSNum → JSNum → JSNum
  | some a, some b => some (a + b)
  | _, _ => none

/-- `-` with `NaN` propagation. -/
def nsub : JSNum → JSNum → JSNum
  | some a, some b => some (a - b)
  | _, _ => none

/-- `*` with `NaN` propagation. -/
def nmul : JSNum → JSNum → JSNum
  | some a, some b => some (a * b)
  | _, _ => none

/-- `/` with `NaN` propagation.  Division by zero (JavaScript `Infinity`) is
also mapped to `none`; no claim involves a zero divisor. -/
def ndiv : JSNum → JSNum → JSNum
  | some a, some b => if b = 0 then none else some (a / b)
  | _, _ => none

/-- `Math.round` on a possibly-`NaN` number (`Math.round NaN = NaN`). -/
def nround (x : JSNum) : JSNum := x.map (fun q => (jsRound q : ℚ))

/-- `Math.ceil` on a possibly-`NaN` number. -/
def nceil (x : JSNum) : JSNum := x.map (fun q => (⌈q⌉ : ℚ))

/-- `Math.max a x` on a possibly-`NaN` number (`Math.max(a, NaN) = NaN`). -/
def nmax (a : ℚ) (x : JSNum) : JSNum := x.map (fun q => max a q)

/-- `parseFloat(x.toFixed d)` on a possibly-`NaN` number
(`NaN.toFixed d = "NaN"`, `parseFloat "NaN" = NaN`). -/
def ntoFixed (d : ℕ) (x : JSNum) : JSNum := x.map (qToFixed d)

/-! ## Protein analysis module (`js/protein.js`) -/

/-- One row of the amino-acid property table. -/
structure AminoAcid where
  name : String
  mw : ℚ
  volume : ℚ
  electrons : ℕ
deriving DecidableEq

/-- The `AMINO_ACIDS` lookup table: one-letter residue code →
name, molecular weight (Da), residue volume (Å³), electron count. -/
def AMINO_ACIDS : List (Char × AminoAcid) :=
  [('A', ⟨"Ala", 89.09, 88.6, 38⟩),
   ('R', ⟨"Arg", 174.20, 173.4, 86⟩),
   ('N', ⟨"Asn", 132.12, 114.1, 66⟩),
   ('D', ⟨"Asp", 133.10, 111.1, 62⟩),
   ('C', ⟨"Cys", 121.16, 108.5, 54⟩),
   ('E', ⟨"Glu", 147.13, 138.4, 70⟩),
   ('Q', ⟨"Gln", 146.15, 143.8, 72⟩),
   ('G', ⟨"Gly", 75.07, 60.1, 30⟩),
   ('H', ⟨"His", 155.16, 153.2, 72⟩),
   ('I', ⟨"Ile", 131.18, 166.7, 62⟩),
   ('L', ⟨"Leu", 131.18, 166.7, 62⟩),
   ('K', ⟨"Lys", 146.19, 168.6, 70⟩),
   ('M', ⟨"Met", 149.21, 162.9, 70⟩),
   ('F', ⟨"Phe", 165.19, 189.9, 78⟩),
   ('P', ⟨"Pro", 115.13, 112.7, 50⟩),
   ('S', ⟨"Ser", 105.09, 89.0, 46⟩),
   ('T', ⟨"Thr", 119.12, 116.1, 54⟩),
   ('W', ⟨"Trp", 204.23, 227.8, 98⟩),
   ('Y', ⟨"Tyr", 181.19, 193.6, 86⟩),
   ('V', ⟨"Val", 117.15, 140.0, 54⟩)]

/-- `AMINO_ACIDS[c]` truthiness test. -/
def isAmino (c : Char) : Bool := (List.lookup c AMINO_ACIDS).isSome

/-- The molecular weight of a residue code (`0` for a non-residue; only ever
used on valid codes). -/
def mwOf (c : Char) : ℚ := ((List.lookup c AMINO_ACIDS).map AminoAcid.mw).getD 0

/-- `WATER_MW`. -/
def WATER_MW : ℚ := 18.015

/-- The cleaning step of `parseSequence`:
`sequence.toUpperCase().replace(/[^A-Z]/g, '')`.  (`Char.toUpper` uppercases
ASCII letters; non-ASCII characters are unchanged and are then discarded by
the `A`–`Z` filter, as in the source.) -/
def cleanInput (raw : List Char) : List Char :=
  (raw.map Char.toUpper).filter fun c => decide ('A' ≤ c) && decide (c ≤ 'Z')

/-- `composition[char] = (composition[char] || 0) + 1` on an insertion-ordered
object: increment the entry with this key, or append a new entry. -/
def addChar : List (Char × ℕ) → Char → List (Char × ℕ)
  | [], c => [(c, 1)]
  | p :: rest, c => if p.1 = c then (p.1, p.2 + 1) :: rest else p :: addChar rest c

/-- The composition-building loop of `parseSequence`: each valid residue of the
cleaned sequence is counted, invalid characters are skipped. -/
def buildComposition (cleaned : List Char) : List (Char × ℕ) :=
  cleaned.foldl (fun comp c => if isAmino c then addChar comp c else comp) []

/-- `[...new Set(xs)]`: deduplication keeping first occurrences. -/
def jsDedup (l : List Char) : List Char :=
  l.foldl (fun acc c => if acc.contains c then acc else acc ++ [c]) []

/-- The record returned by `parseSequence`. -/
structure ParseResult where
  sequence : List Char
  length : ℕ
  composition : List (Char × ℕ)
  invalidChars : List Char
  isValid : Bool
deriving DecidableEq

/-- `parseSequence`: clean the raw input, count valid residues, collect
invalid characters (deduplicated in the returned record; the `isValid` check
uses the raw list, as in the source). -/
def parseSequence (raw : List Char) : ParseResult :=
  let cleaned := cleanInput raw
  let invalidRaw := cleaned.filter fun c => !(isAmino c)
  let validCount := (cleaned.filter fun c => isAmino c).length
  { sequence := cleaned
    length := validCount
    composition := buildComposition cleaned
    invalidChars := jsDedup invalidRaw
    isValid := invalidRaw.isEmpty && decide (0 < validCount) }

/-- `calculateMolecularWeight`: sum residue masses and counts over the
composition entries (skipping non-residue keys), then subtract one water mass
per peptide bond when more than one residue is present. -/
def calculateMolecularWeight (composition : List (Char × ℕ)) : ℚ :=
  let acc := composition.foldl
    (fun (st : ℚ × ℕ) p =>
      match List.lookup p.1 AMINO_ACIDS with
      | some aa => (st.1 + aa.mw * p.2, st.2 + p.2)
      | none => st)
    (0, 0)
  if 1 < acc.2 then acc.1 - ((acc.2 : ℚ) - 1) * WATER_MW else acc.1

/-- `calculateDryVolume`: residue volumes are additive, no water correction. -/
def calculateDryVolume (composition : List (Char × ℕ)) : ℚ :=
  composition.foldl
    (fun v p =>
      match List.lookup p.1 AMINO_ACIDS with
      | some aa => v + aa.volume * p.2
      | none => v)
    0

/-- `calculateElectronCount`: sum electrons, subtract 10 per peptide bond when
more than one residue is present. -/
def calculateElectronCount (composition : List (Char × ℕ)) : ℤ :=
  let acc := composition.foldl
    (fun (st : ℤ × ℕ) p =>
      match List.lookup p.1 AMINO_ACIDS with
      | some aa => (st.1 + (aa.electrons : ℤ) * p.2, st.2 + p.2)
      | none => st)
    (0, 0)
  if 1 < acc.2 then acc.1 - ((acc.2 : ℤ) - 1) * 10 else acc.1

/-- The record returned by `calculateExtinctionCoeff`. -/
structure ExtinctionResult where
  epsilon : ℕ
  nTrp : ℕ
  nTyr : ℕ
  nCys : ℕ
  nDisulfide : ℕ
deriving DecidableEq

/-- `calculateExtinctionCoeff`: ε(280nm) from Trp/Tyr/disulfide counts. -/
def calculateExtinctionCoeff (composition : List (Char × ℕ))
    (reducedCysteine : Bool := false) : ExtinctionResult :=
  let nW := ((List.lookup 'W' composition).getD 0)
  let nY := ((List.lookup 'Y' composition).getD 0)
  let nC := ((List.lookup 'C' composition).getD 0)
  let nDisulfide := if reducedCysteine then 0 else nC / 2
  { epsilon := nW * 5500 + nY * 1490 + nDisulfide * 125
    nTrp := nW, nTyr := nY, nCys := nC, nDisulfide := nDisulfide }

/-- `calculateDnDc`: fixed constant 0.185 mL/g. -/
def calculateDnDc (_mw : ℚ) : ℚ := 0.185

/-- `calculatePartialSpecificVolume`: Å³/molecule → cm³/g. -/
def calculatePartialSpecificVolume (composition : List (Char × ℕ)) : ℚ :=
  (calculateDryVolume composition * 1e-24 * 6.022e23) /
    calculateMolecularWeight composition

/-- `calculateEpsilonCm2g`. -/
def calculateEpsilonCm2g (extinctionData : ExtinctionResult) (mw : ℚ) : ℚ :=
  ((extinctionData.epsilon : ℚ) / mw) * 1000

/-- The success record of `analyzeProtein` (the `iucr*` fields model the
`toFixed` decimal strings by their numeric values). -/
structure ProteinResult where
  sequence : List Char
  length : ℕ
  composition : List (Char × ℕ)
  molecularWeight : ℚ
  molecularWeightKDa : ℚ
  dryVolume : ℚ
  electronCount : ℤ
  extinction : ExtinctionResult
  epsilonCm2g : ℚ
  partialSpecificVolume : ℚ
  dndc : ℚ
  iucrMw : ℚ
  iucrVbar : ℚ
  iucrDndc : ℚ
deriving DecidableEq

/-- `analyzeProtein` returns either an error record (with its message and the
parse result) or the full analysis record. -/
inductive ProteinOutcome where
  | error (message : String) (parsed : ParseResult)
  | ok (result : ProteinResult)
deriving DecidableEq

/-- `analyzeProtein`: fail when the parse is invalid, with the
"no valid residues" message when `length === 0` and the invalid-character
listing otherwise; compute all derived quantities on success. -/
def analyzeProtein (raw : List Char) : ProteinOutcome :=
  let parsed := parseSequence raw
  if parsed.isValid then
    let mw := calculateMolecularWeight parsed.composition
    let dryVolume := calculateDryVolume parsed.composition
    let electrons := calculateElectronCount parsed.composition
    let extinction := calculateExtinctionCoeff parsed.composition
    let vbar := calculatePartialSpecificVolume parsed.composition
    let dndc := calculateDnDc mw
    let epsilonCm2g := calculateEpsilonCm2g extinction mw
    .ok { sequence := parsed.sequence
          length := parsed.length
          composition := parsed.composition
          molecularWeight := mw
          molecularWeightKDa := mw / 1000
          dryVolume := dryVolume
          electronCount := electrons
          extinction := extinction
          epsilonCm2g := epsilonCm2g
          partialSpecificVolume := vbar
          dndc := dndc
          iucrMw := qToFixed 2 mw
          iucrVbar := qToFixed 6 vbar
          iucrDndc := qToFixed 4 dndc }
  else
    .error
      (if parsed.length = 0 then "請輸入有效的蛋白質序列"
       else String.append "包含無效字符: "
         (String.intercalate ", " (parsed.invalidChars.map Char.toString)))
      parsed

/-! ## Guinier analysis (`js/calculations.js`, `guinierAnalysis`) -/

/-- The result of `guinierAnalysis`: either the insufficient-data error record
(`{error: true, message}`) or the success record (`{error: false, ...}`).
`slope`/`intercept` are the regression coefficients, `none` when the
JavaScript value is `NaN` (the regression quotient is `0/0` when all selected
`q` coincide, and the `NaN` propagates into the intercept);
`I0 = exp intercept` and `Rg = sqrt (-3 * slope)` are determined by them;
`rgIsNaN` records whether the `Rg` field is `NaN` (slope `NaN`, or
`Math.sqrt` of a negative argument); `r2` is `none` when the JavaScript
computation yields `NaN` (slope `NaN`, or `ssTot = 0` and hence `0/0`). -/
inductive GuinierResult where
  | insufficientData (message : String)
  | success (slope intercept : Option ℚ) (r2 : Option ℚ) (dataPoints : ℕ)
      (rgIsNaN : Bool)
deriving DecidableEq

/-- The data-selection loop of `guinierAnalysis`: iterate `i` over
`0 .. qValues.length - 1`; `intensities[i]` is `undefined` past the end of
`intensities` and then `I > 0` is false, so the point is skipped.  Kept points
are mapped to `(q², log I)`.  `jsLog` interprets `Math.log`. -/
def guinierData (jsLog : ℚ → ℚ) (qValues intensities : List ℚ)
    (qMin qMax : ℚ) : List (ℚ × ℚ) :=
  (List.range qValues.length).filterMap fun i =>
    match qValues[i]?, intensities[i]? with
    | some q, some I => if qMin ≤ q ∧ q ≤ qMax ∧ 0 < I then some (q * q, jsLog I) else none
    | _, _ => none

/-- `guinierAnalysis` (the JavaScript defaults are `qMin = 0`,
`qMax = Infinity`; the bounds are explicit here since `ℚ` has no infinity).

The source computes `slope = (n·ΣXY − ΣX·ΣY) / (n·ΣX² − (ΣX)²)`.  When the
denominator vanishes, all selected `q` coincide (zero variance of `x = q²`)
and then the numerator vanishes as well, so the JavaScript quotient is the
non-finite `0/0 = NaN`: that case is `none`, and the `NaN` propagates through
`intercept = (ΣY − slope·ΣX)/n`, through `ssRes` (whose predictions use the
slope) into `r2 = 1 − ssRes/ssTot`, and into `Rg = √(−3·slope)`.  With a
finite slope, `r2` is still `NaN` when `ssTot = 0` (then `ssRes = 0` too and
the quotient is `0/0`). -/
def guinierAnalysis (jsLog : ℚ → ℚ) (qValues intensities : List ℚ)
    (qMin qMax : ℚ) : GuinierResult :=
  let data := guinierData jsLog qValues intensities qMin qMax
  if data.length < 3 then .insufficientData "數據點不足"
  else
    let n : ℚ := data.length
    let sumX := (data.map fun p => p.1).sum
    let sumY := (data.map fun p => p.2).sum
    let sumXY := (data.map fun p => p.1 * p.2).sum
    let sumX2 := (data.map fun p => p.1 * p.1).sum
    let slope : Option ℚ :=
      if n * sumX2 - sumX * sumX = 0 then none
      else some ((n * sumXY - sumX * sumY) / (n * sumX2 - sumX * sumX))
    let intercept : Option ℚ := slope.map fun s => (sumY - s * sumX) / n
    let yMean := sumY / n
    let ssTot := (data.map fun p => (p.2 - yMean) ^ 2).sum
    let r2 : Option ℚ := slope.bind fun s =>
      if ssTot = 0 then none
      else some (1 - (data.map fun p =>
        (p.2 - ((sumY - s * sumX) / n + s * p.1)) ^ 2).sum / ssTot)
    let rgIsNaN : Bool :=
      match slope with
      | none => true
      | some s => decide (0 < s)
    .success slope intercept r2 data.length rgIsNaN

/-- `{error: true}` discriminator. -/
def isInsufficient : GuinierResult → Bool
  | .insufficientData _ => true
  | .success _ _ _ _ _ => false

/-- The `dataPoints` field of a success record. -/
def dataPointsOf : GuinierResult → Option ℕ
  | .insufficientData _ => none
  | .success _ _ _ n _ => some n

/-- The `slope` field of a success record (which is itself `none` when the
JavaScript slope is `NaN`). -/
def slopeOf : GuinierResult → Option (Option ℚ)
  | .insufficientData _ => none
  | .success s _ _ _ _ => some s

/-- Whether the `Rg` field of a success record is `NaN`. -/
def rgIsNaNOf : GuinierResult → Option Bool
  | .insufficientData _ => none
  | .success _ _ _ _ b => some b

/-- Specification-side condition for `Rg = Math.sqrt (-3 * slope)` being
`NaN`: the slope is `NaN`, or it is positive (negative square-root
argument). -/
def rgNaNOfSlope : Option ℚ → Bool
  | none => true
  | some s => decide (0 < s)

/-- Specification-side count of qualifying points: pairs `(q[i], I[i])` (both
present) with `q` in the window and positive intensity. -/
def qualifyingCount (qValues intensities : List ℚ) (qMin qMax : ℚ) : ℕ :=
  ((qValues.zip intensities).filter fun p =>
    decide (qMin ≤ p.1 ∧ p.1 ≤ qMax ∧ 0 < p.2)).length

/-! ## Theoretical I(0) (`calculateTheoreticalI0`) -/

/-- The record returned by `calculateTheoreticalI0`. -/
structure TheoreticalI0Result where
  theoreticalI0 : ℚ
  I0_per_concentration : ℚ
  I0_per_c_per_MW : ℚ
  constant_k : ℚ
  mw : ℚ
  concentration : ℚ
  partialSpecificVolume : ℚ
deriving DecidableEq

/-- `calculateTheoreticalI0`: the physically derived contrast chain
(`deltaRho`, `deltaSLD`, `molecularVolume`, …) is computed as in the source
but the returned `theoreticalI0` uses the empirical constant
`k = 7.8e-6 cm⁻¹/(mg/mL·Da)`. -/
def calculateTheoreticalI0 (mw concentration : ℚ)
    (partialSpecificVolume : ℚ := 0.73) : TheoreticalI0Result :=
  let NA : ℚ := 6.022e23
  let re : ℚ := 2.818e-13
  let electronDensityProtein : ℚ := 0.44
  let electronDensitySolvent : ℚ := 0.334
  let deltaRho_eA3 := electronDensityProtein - electronDensitySolvent
  let deltaRho := deltaRho_eA3 * 1e24
  let deltaSLD := deltaRho * re
  let vbar := partialSpecificVolume
  let c_gcm3 := concentration / 1000
  let molecularVolume := mw * vbar / NA
  let k_protein : ℚ := 7.8e-6
  let theoreticalI0 := concentration * mw * k_protein
  let I0_per_c_per_MW := theoreticalI0 / concentration / mw
  { theoreticalI0 := theoreticalI0
    I0_per_concentration := theoreticalI0 / concentration
    I0_per_c_per_MW := I0_per_c_per_MW
    constant_k := k_protein
    mw := mw
    concentration := concentration
    partialSpecificVolume := partialSpecificVolume }

/-! ## SEC column calibration (`getColumnParams` and the retention mappings) -/

/-- Calibration pair `(a, b)` of `Ve = a + b·ln(MW)`. -/
structure ColumnParams where
  a : ℚ
  b : ℚ
deriving DecidableEq

/-- `getColumnParams`: fixed table keyed by pore-size string, unknown sizes
fall back to the 100Å column (`params[poreSize] || params['100']`). -/
def getColumnParams (poreSize : String) : ColumnParams :=
  if poreSize = "100" then ⟨6.266577, -0.334132⟩
  else if poreSize = "150" then ⟨6.339505, -0.359768⟩
  else if poreSize = "300" then ⟨6.731261, -0.337337⟩
  else ⟨6.266577, -0.334132⟩

/-- `calculateRetentionTimeFromMw` (JavaScript defaults: `poreSize = '100'`,
`flowRate = 0.35`); `jsLog` interprets `Math.log`. -/
def calculateRetentionTimeFromMw (jsLog : ℚ → ℚ) (mw : ℚ)
    (poreSize : String) (flowRate : ℚ) : ℚ :=
  let params := getColumnParams poreSize
  let retentionVolume := params.a + params.b * jsLog mw
  retentionVolume / flowRate

/-- `calculateMwFromRetentionTime`; `jsExp` interprets `Math.exp`. -/
def calculateMwFromRetentionTime (jsExp : ℚ → ℚ) (retentionTime : ℚ)
    (poreSize : String) (flowRate : ℚ) : ℚ :=
  let params := getColumnParams poreSize
  let retentionVolume := retentionTime * flowRate
  jsExp ((retentionVolume - params.a) / params.b)

/-! ## HPLC-SAXS schedule derivation (`calculateHPLCSAXSSettings`) -/

/-- `calculatePeakWidthScaling`: fixed cubic in the injection volume (O4). -/
def calculatePeakWidthScaling (injectionVolume : JSNum) : JSNum :=
  injectionVolume.map fun v =>
    1.00959 - 0.00468 * v + 0.0005034 * (v * v) - 0.0000031539 * (v * v * v)

/-- `calculateTimeOffset`: fixed cubic in the injection volume (P4). -/
def calculateTimeOffset (injectionVolume : JSNum) : JSNum :=
  injectionVolume.map fun v =>
    0.000146507 - 0.000266 * v + 0.00007393 * (v * v) - 0.0000005204 * (v * v * v)

/-- The five scalar inputs of `calculateHPLCSAXSSettings`; `none` models a
missing (`undefined`) or non-numeric (`NaN`) parameter. -/
structure HPLCParams where
  peakCenter : JSNum
  peakFWHM : JSNum
  injectionVolume : JSNum
  targetFlowRate : JSNum
  initialFlowRate : JSNum
deriving DecidableEq

/-- O4, the peak-width scaling factor. -/
def hplcO4 (p : HPLCParams) : JSNum := calculatePeakWidthScaling p.injectionVolume

/-- P4, the time offset. -/
def hplcP4 (p : HPLCParams) : JSNum := calculateTimeOffset p.injectionVolume

/-- M5 = M3·O4, the scaled FWHM. -/
def hplcM5 (p : HPLCParams) : JSNum := nmul p.peakFWHM (hplcO4 p)

/-- M6 = M5·O6 with O6 = 0.7, the target FWHM. -/
def hplcM6 (p : HPLCParams) : JSNum := nmul (hplcM5 p) (nnum 0.7)

/-- M7 = M1 + P4 − (M5/2)·O6, the peak start time. -/
def hplcM7 (p : HPLCParams) : JSNum :=
  nsub (nadd p.peakCenter (hplcP4 p)) (nmul (ndiv (hplcM5 p) (nnum 2)) (nnum 0.7))

/-- M8 = M1 + P4 + (M5/2)·O6, the peak stop time. -/
def hplcM8 (p : HPLCParams) : JSNum :=
  nadd (nadd p.peakCenter (hplcP4 p)) (nmul (ndiv (hplcM5 p) (nnum 2)) (nnum 0.7))

/-- M9 = M8 − M7, the total slowing time. -/
def hplcM9 (p : HPLCParams) : JSNum := nsub (hplcM8 p) (hplcM7 p)

/-- M20 = M7 − Q20 − 0.2 with Q20 = 0.1, the transition breakpoint. -/
def hplcM20 (p : HPLCParams) : JSNum := nsub (nsub (hplcM7 p) (nnum 0.1)) (nnum 0.2)

/-- M21 = M7 − 0.2, start of the constant slow flow (X-ray image). -/
def hplcM21 (p : HPLCParams) : JSNum := nsub (hplcM7 p) (nnum 0.2)

/-- M22 = M21 + M9·O12 + 0.05/O11 + E4 with O12 = 1, O11 the target flow rate
and E4 = 2, end of the constant slow flow (X-ray image). -/
def hplcM22 (p : HPLCParams) : JSNum :=
  nadd (nadd (nadd (hplcM21 p) (nmul (hplcM9 p) (nnum 1)))
    (ndiv (nnum 0.05) p.targetFlowRate)) (nnum 2)

/-- M23 = M22 + 2, transition back to fast flow. -/
def hplcM23 (p : HPLCParams) : JSNum := nadd (hplcM22 p) (nnum 2)

/-- M24 = M23 + 0.5. -/
def hplcM24 (p : HPLCParams) : JSNum := nadd (hplcM23 p) (nnum 0.5)

/-- M22 − M21, the X-ray collection duration. -/
def hplcXrayDuration (p : HPLCParams) : JSNum := nsub (hplcM22 p) (hplcM21 p)

/-- Fraction-collector stop time = M7 + (M22 − M21)·2.45. -/
def hplcFractionStopTime (p : HPLCParams) : JSNum :=
  nadd (hplcM7 p) (nmul (hplcXrayDuration p) (nnum 2.45))

/-- Time per fraction = 1.2/B6 with B6 the initial flow rate. -/
def hplcTimePerFraction (p : HPLCParams) : JSNum := ndiv (nnum 1.2) p.initialFlowRate

/-- J22 = round((M20·60 − I22 − I23 − I24 − 41)/4 − 15) with the three
40-second exposures. -/
def hplcJ22 (p : HPLCParams) : JSNum :=
  nround (nsub (ndiv (nsub (nsub (nsub (nsub (nmul (hplcM20 p) (nnum 60))
    (nnum 40)) (nnum 40)) (nnum 40)) (nnum 41)) (nnum 4)) (nnum 15))

/-- Hold time of detector steps 1–2: `Math.max(1, J22)`. -/
def hplcHoldTime1 (p : HPLCParams) : JSNum := nmax 1 (hplcJ22 p)

/-- Hold time of detector step 3: `holdTime1 * 2 + 1`. -/
def hplcHoldTime3 (p : HPLCParams) : JSNum :=
  nadd (nmul (hplcHoldTime1 p) (nnum 2)) (nnum 1)

/-- G25 = round((M22 − M21)·60/I25 + 90) with I25 = 2, the frame count of
detector step 4. -/
def hplcG25 (p : HPLCParams) : JSNum :=
  nround (nadd (ndiv (nmul (nsub (hplcM22 p) (hplcM21 p)) (nnum 60)) (nnum 2)) (nnum 90))

/-- Report stop time = `Math.ceil(fractionStopTime + 1 + 3)`. -/
def hplcReportStoptime (p : HPLCParams) : JSNum :=
  nceil (nadd (nadd (hplcFractionStopTime p) (nnum 1)) (nnum 3))

/-- One row of the flow-rate table. -/
structure FlowRatePoint where
  time : JSNum
  flowRate : JSNum
  note : String
deriving DecidableEq

/-- The fraction-collector window. -/
structure FractionCollector where
  startTime : JSNum
  stopTime : JSNum
  timePerFraction : JSNum
deriving DecidableEq

/-- One row of the detector-exposure table. -/
structure DetectorStep where
  step : ℕ
  mode : String
  frame : JSNum
  wait : ℚ
  exposure : ℚ
  hold : JSNum
deriving DecidableEq

/-- The `scaling` sub-record of the result. -/
structure ScalingInfo where
  peakWidthScaling : JSNum
  timeOffset : JSNum
  adjustedFWHM : JSNum
  targetFWHM : JSNum
  xrayDuration : JSNum
deriving DecidableEq

/-- The `xrayCollection` sub-record of the result. -/
structure XrayCollection where
  peakStartTime : JSNum
  peakStopTime : JSNum
  totalSlowingTime : JSNum
  totalSlowingTimeSec : JSNum
deriving DecidableEq

/-- The record returned by `calculateHPLCSAXSSettings`. -/
structure HPLCResult where
  input : HPLCParams
  scaling : ScalingInfo
  xrayCollection : XrayCollection
  flowRateTable : List FlowRatePoint
  fractionCollector : FractionCollector
  reportStoptime : JSNum
  detectorSettings : List DetectorStep
deriving DecidableEq

/-- The body of `calculateHPLCSAXSSettings`: the full dependency chain,
assembled exactly as in the source (all `toFixed` roundings included). -/
def hplcResult (p : HPLCParams) : HPLCResult :=
  { input := p
    scaling :=
      { peakWidthScaling := ntoFixed 4 (hplcO4 p)
        timeOffset := ntoFixed 4 (hplcP4 p)
        adjustedFWHM := ntoFixed 3 (hplcM5 p)
        targetFWHM := ntoFixed 3 (hplcM6 p)
        xrayDuration := ntoFixed 3 (hplcXrayDuration p) }
    xrayCollection :=
      { peakStartTime := ntoFixed 3 (hplcM7 p)
        peakStopTime := ntoFixed 3 (hplcM8 p)
        totalSlowingTime := ntoFixed 3 (hplcM9 p)
        totalSlowingTimeSec := ntoFixed 1 (nmul (hplcM9 p) (nnum 60)) }
    flowRateTable :=
      [{ time := ntoFixed 2 (nnum 0), flowRate := p.initialFlowRate, note := "" },
       { time := ntoFixed 2 (hplcM20 p), flowRate := p.targetFlowRate, note := "" },
       { time := ntoFixed 2 (hplcM21 p), flowRate := p.targetFlowRate, note := "X-RAY IMAGE" },
       { time := ntoFixed 2 (hplcM22 p), flowRate := p.targetFlowRate, note := "X-RAY IMAGE" },
       { time := ntoFixed 2 (hplcM23 p), flowRate := p.targetFlowRate, note := "" },
       { time := ntoFixed 2 (hplcM24 p), flowRate := p.targetFlowRate, note := "" }]
    fractionCollector :=
      { startTime := ntoFixed 1 (hplcM7 p)
        stopTime := ntoFixed 1 (hplcFractionStopTime p)
        timePerFraction := ntoFixed 1 (hplcTimePerFraction p) }
    reportStoptime := hplcReportStoptime p
    detectorSettings :=
      [{ step := 1, mode := "SAS", frame := nnum 1, wait := 0.1, exposure := 40,
         hold := hplcHoldTime1 p },
       { step := 2, mode := "SAS", frame := nnum 1, wait := 0.1, exposure := 40,
         hold := hplcHoldTime1 p },
       { step := 3, mode := "SAS", frame := nnum 1, wait := 0.1, exposure := 40,
         hold := hplcHoldTime3 p },
       { step := 4, mode := "SAS", frame := hplcG25 p, wait := 0.1, exposure := 2,
         hold := nnum 100 },
       { step := 5, mode := "SAS", frame := nnum 1, wait := 0.1, exposure := 2,
         hold := nnum 1 },
       { step := 6, mode := "TM", frame := nnum 1, wait := 0.1, exposure := 4,
         hold := nnum 1 }] }

/-- Codomain of `calculateHPLCSAXSSettings`, widened with the
`missingParameter` failure state of the specification so that the claimed
failure semantics is statable; the source function (like this embedding)
returns a result record unconditionally and never produces it. -/
inductive HPLCOutcome where
  | missingParameter
  | result (r : HPLCResult)
deriving DecidableEq

/-- `calculateHPLCSAXSSettings`. -/
def calculateHPLCSAXSSettings (p : HPLCParams) : HPLCOutcome :=
  .result (hplcResult p)

/-- Discriminator: did the call return a result record? -/
def isResult : HPLCOutcome → Bool
  | .missingParameter => false
  | .result _ => true

/-- Specification-side formula for the hold time of detector steps 1–2:
round((transition breakpoint × 60 − 120 − 41)/4 − 15), floored at 1. -/
def specHold12 (p : HPLCParams) : JSNum :=
  (hplcM20 p).map fun t => max 1 ((jsRound ((t * 60 - 120 - 41) / 4 - 15) : ℚ))

/-- Specification-side formula for the frame count of detector step 4:
round(collection duration × 60 / 2 + 90). -/
def specFrame4 (p : HPLCParams) : JSNum :=
  (hplcXrayDuration p).map fun d => ((jsRound (d * 60 / 2 + 90) : ℚ))

/-- Specification-side mass contribution of one composition entry (zero for a
key outside the amino-acid table, which `calculateMolecularWeight` skips). -/
def mwContrib (p : Char × ℕ) : ℚ :=
  match List.lookup p.1 AMINO_ACIDS with
  | some aa => aa.mw * p.2
  | none => 0

/-- Specification-side residue-count contribution of one composition entry. -/
def resContrib (p : Char × ℕ) : ℕ :=
  match List.lookup p.1 AMINO_ACIDS with
  | some _ => p.2
  | none => 0

/-! # Theorems -/

/-! ## Arithmetic facts about the `JSNum` operations -/

@[simp] theorem nadd_some (a b : ℚ) : nadd (some a) (some b) = some (a + b) := rfl

@[simp] theorem nadd_none_left (x : JSNum) : nadd none x = none := rfl

@[simp] theorem nadd_none_right (x : JSNum) : nadd x none = none := by
  cases x <;> rfl

@[simp] theorem nsub_some (a b : ℚ) : nsub (some a) (some b) = some (a - b) := rfl

@[simp] theorem nsub_none_left (x : JSNum) : nsub none x = none := rfl

@[simp] theorem nsub_none_right (x : JSNum) : nsub x none = none := by
  cases x <;> rfl

@[simp] theorem nmul_some (a b : ℚ) : nmul (some a) (some b) = some (a * b) := rfl

@[simp] theorem nmul_none_left (x : JSNum) : nmul none x = none := rfl

@[simp] theorem nmul_none_right (x : JSNum) : nmul x none = none := by
  cases x <;> rfl

theorem ndiv_some {b : ℚ} (a : ℚ) (hb : b ≠ 0) :
    ndiv (some a) (some b) = some (a / b) := by
  simp [ndiv, hb]

@[simp] theorem ndiv_none_left (x : JSNum) : ndiv none x = none := rfl

@[simp] theorem ndiv_none_right (x : JSNum) : ndiv x none = none := by
  cases x <;> rfl

@[simp] theorem nround_some (a : ℚ) : nround (some a) = some ((jsRound a : ℚ)) := rfl

@[simp] theorem nround_none : nround none = none := rfl

@[simp] theorem nceil_some (a : ℚ) : nceil (some a) = some ((⌈a⌉ : ℚ)) := rfl

@[simp] theorem nceil_none : nceil none = none := rfl

@[simp] theorem nmax_some (a b : ℚ) : nmax a (some b) = some (max a b) := rfl

@[simp] theorem nmax_none (a : ℚ) : nmax a none = none := rfl

@[simp] theorem ntoFixed_some (d : ℕ) (a : ℚ) :
    ntoFixed d (some a) = some (qToFixed d a) := rfl

@[simp] theorem ntoFixed_none (d : ℕ) : ntoFixed d none = none := rfl

/-! ## C2: the empirical I(0) law -/

/-- **C2.** For every `mw`, `concentration` and `partialSpecificVolume`,
`calculateTheoreticalI0` returns `theoreticalI0 = concentration × mw × 7.8e-6`,
and the result is independent of the partial specific volume (the internally
computed electron-contrast chain never influences the returned value). -/
theorem calculateTheoreticalI0_empirical (mw c v : ℚ) :
    (calculateTheoreticalI0 mw c v).theoreticalI0 = c * mw * 7.8e-6 ∧
    ∀ v2 : ℚ, (calculateTheoreticalI0 mw c v).theoreticalI0 =
      (calculateTheoreticalI0 mw c v2).theoreticalI0 := by
  exact ⟨rfl, fun v2 => rfl⟩

/-! ## C1: no validation inside `calculateHPLCSAXSSettings` -/

/-- **C1 (amended).** `calculateHPLCSAXSSettings` performs no input
validation: for every combination of present/missing inputs it returns a
result record, never the `MissingParameterError` of the specification; with a
missing peak center the returned record is a partial result whose derived
fields (e.g. the peak start time) are `NaN`.  The abort-on-missing-input
behaviour lives in the UI caller (`initHPLCSection`), which checks `isNaN` on
all five inputs before invoking the calculation. -/
theorem hplc_no_missing_parameter_error (pc fw iv tf fr : JSNum) :
    isResult (calculateHPLCSAXSSettings ⟨pc, fw, iv, tf, fr⟩) = true ∧
    (hplcResult ⟨none, fw, iv, tf, fr⟩).xrayCollection.peakStartTime = none := by
  refine ⟨rfl, ?_⟩
  simp [hplcResult, hplcM7, hplcP4]

/-- **C1 (counterexample).** With the peak center missing and the four other
inputs present, the claimed abort does not happen: a result record is still
returned, and it is a partial result (its peak start time is `NaN`). -/
theorem hplc_missing_input_counterexample :
    isResult (calculateHPLCSAXSSettings
      ⟨none, some 1, some 100, some 0.35, some 0.35⟩) = true ∧
    (hplcResult ⟨none, some 1, some 100, some 0.35, some 0.35⟩).xrayCollection.peakStartTime
      = none := by
  refine ⟨rfl, ?_⟩
  simp [hplcResult, hplcM7, hplcP4]

/-! ## C4: SEC retention-time round trip -/

theorem getColumnParams_b_ne (poreSize : String) : (getColumnParams poreSize).b ≠ 0 := by
  unfold getColumnParams
  split_ifs <;> norm_num

/-- **C4.** For every molecular weight `mw > 0`, every pore-size string and
every flow rate `> 0`, mapping `mw` to a retention time and back recovers `mw`
exactly (in ideal arithmetic): the flow rate cancels and `exp` inverts `ln`
through the calibration `Ve = a + b·ln(MW)`.  `jsLog`/`jsExp` are arbitrary
interpretations of `Math.log`/`Math.exp` subject only to `exp∘log = id` on
positives, which the ideal transcendental functions satisfy. -/
theorem sec_roundtrip (jsLog jsExp : ℚ → ℚ)
    (hinv : ∀ x : ℚ, 0 < x → jsExp (jsLog x) = x)
    (pore : String) (mw flow : ℚ) (hmw : 0 < mw) (hflow : 0 < flow) :
    calculateMwFromRetentionTime jsExp
      (calculateRetentionTimeFromMw jsLog mw pore flow) pore flow = mw := by
  have hb := getColumnParams_b_ne pore
  have hf : flow ≠ 0 := ne_of_gt hflow
  simp only [calculateMwFromRetentionTime, calculateRetentionTimeFromMw]
  have harg :
      ((getColumnParams pore).a + (getColumnParams pore).b * jsLog mw) / flow * flow -
          (getColumnParams pore).a = (getColumnParams pore).b * jsLog mw := by
    field_simp
  rw [harg, mul_div_cancel_left₀ _ hb]
  exact hinv mw hmw

/-- Witness for C4 at `mw = 2`, pore `"100"`, flow `0.35` (with the identity
pair as a log/exp interpretation satisfying the inversion law). -/
theorem sec_roundtrip_witness :
    0 < (2 : ℚ) ∧ 0 < (0.35 : ℚ) ∧
    calculateMwFromRetentionTime id
      (calculateRetentionTimeFromMw id 2 "100" 0.35) "100" 0.35 = 2 :=
  ⟨by norm_num, by norm_num,
    sec_roundtrip id id (fun x _ => rfl) "100" 2 0.35 (by norm_num) (by norm_num)⟩

/-! ## Guinier data selection: loop semantics -/

/-- The index loop of `guinierAnalysis` is equivalent to filtering the zipped
point list: a point contributes iff both `q[i]` and `I[i]` exist, `q[i]` lies
in the window and `I[i] > 0`. -/
theorem guinierData_eq_zip (jsLog : ℚ → ℚ) (qs Is : List ℚ) (a b : ℚ) :
    guinierData jsLog qs Is a b = (qs.zip Is).filterMap fun p =>
      if a ≤ p.1 ∧ p.1 ≤ b ∧ 0 < p.2 then some (p.1 * p.1, jsLog p.2) else none := by
  induction qs generalizing Is with
  | nil => simp [guinierData]
  | cons q qt ih =>
    cases Is with
    | nil =>
      rw [List.zip_nil_right]
      simp only [List.filterMap_nil, guinierData]
      rw [List.filterMap_eq_nil_iff]
      intro i _
      rcases hq : (q :: qt)[i]? with _ | q0 <;> simp [List.getElem?_nil, hq]
    | cons I It =>
      show (List.range (qt.length + 1)).filterMap _ = _
      rw [List.range_succ_eq_map, List.filterMap_cons, List.filterMap_map]
      have htail :
          ((List.range qt.length).filterMap
            ((fun i =>
              match (q :: qt)[i]?, (I :: It)[i]? with
              | some q1, some I1 =>
                if a ≤ q1 ∧ q1 ≤ b ∧ 0 < I1 then some (q1 * q1, jsLog I1) else none
              | _, _ => none) ∘ Nat.succ)) = guinierData jsLog qt It a b := by
        apply List.filterMap_congr
        intro i _
        simp [Function.comp, List.getElem?_cons_succ, guinierData]
      rw [show (q :: qt).zip (I :: It) = (q, I) :: qt.zip It from rfl,
        List.filterMap_cons]
      simp only [List.getElem?_cons_zero, htail, ih]

/-- The number of selected points is the number of qualifying `(q, I)` pairs. -/
theorem guinierData_length (jsLog : ℚ → ℚ) (qs Is : List ℚ) (a b : ℚ) :
    (guinierData jsLog qs Is a b).length = qualifyingCount qs Is a b := by
  rw [guinierData_eq_zip, qualifyingCount]
  induction qs.zip Is with
  | nil => rfl
  | cons p t ih =>
    rw [List.filterMap_cons, List.filter_cons]
    by_cases h : a ≤ p.1 ∧ p.1 ≤ b ∧ 0 < p.2 <;> simp [h, ih]

/-! ## C7: the insufficient-data error state -/

/-- **C7.** `guinierAnalysis` returns the insufficient-data error state iff
fewer than 3 pairs `(q[i], I[i])` satisfy `q ∈ [qMin, qMax]` and `I > 0`; in
particular it does so on empty inputs, and on success the reported
`dataPoints` equals the qualifying-point count. -/
theorem guinier_insufficient_iff (jsLog : ℚ → ℚ) (qs Is : List ℚ) (a b : ℚ) :
    isInsufficient (guinierAnalysis jsLog qs Is a b) =
      decide (qualifyingCount qs Is a b < 3) ∧
    dataPointsOf (guinierAnalysis jsLog qs Is a b) =
      (if qualifyingCount qs Is a b < 3 then none
       else some (qualifyingCount qs Is a b)) ∧
    isInsufficient (guinierAnalysis jsLog [] [] a b) = true := by
  have hlen := guinierData_length jsLog qs Is a b
  refine ⟨?_, ?_, rfl⟩ <;>
    · simp only [guinierAnalysis, hlen]
      by_cases h : qualifyingCount qs Is a b < 3 <;>
        simp [h, isInsufficient, dataPointsOf]

/-! ## C10: totality on mismatched array lengths -/

/-- **C10.** The selection loop runs over exactly `qValues.length` indices and
is total for mismatched lengths: an index beyond the end of `intensities`
reads an undefined intensity, which fails the `I > 0` test and is excluded, so
the regression uses exactly the pairs present in both arrays (truncating
`intensities` to `qValues.length` changes nothing). -/
theorem guinier_total_on_mismatched_lengths (jsLog : ℚ → ℚ)
    (qs Is : List ℚ) (a b : ℚ) :
    guinierData jsLog qs Is a b = (qs.zip Is).filterMap (fun p =>
      if a ≤ p.1 ∧ p.1 ≤ b ∧ 0 < p.2 then some (p.1 * p.1, jsLog p.2) else none) ∧
    guinierAnalysis jsLog qs Is a b =
      guinierAnalysis jsLog qs (Is.take qs.length) a b := by
  refine ⟨guinierData_eq_zip jsLog qs Is a b, ?_⟩
  have hzip : qs.zip Is = qs.zip (Is.take qs.length) := by
    induction qs generalizing Is with
    | nil => simp
    | cons q qt ih =>
      cases Is with
      | nil => simp
      | cons I It => simpa using ih It
  have hdata : guinierData jsLog qs Is a b =
      guinierData jsLog qs (Is.take qs.length) a b := by
    rw [guinierData_eq_zip, guinierData_eq_zip, hzip]
  simp only [guinierAnalysis, hdata]

/-! ## C3: no DomainError state for a non-negative slope -/

/-- **C3 (amended).** With at least 3 qualifying points `guinierAnalysis`
always returns a success record, whatever the fitted slope; there is no
distinct `DomainError` state.  The `Rg = √(−3·slope)` field of that record is
`NaN` exactly when the slope is itself `NaN` (the `0/0` regression quotient,
when all selected `q` coincide) or positive (negative square-root argument) —
callers must check. -/
theorem guinier_no_domain_error (jsLog : ℚ → ℚ) (qs Is : List ℚ) (a b : ℚ)
    (h3 : 3 ≤ (guinierData jsLog qs Is a b).length) :
    isInsufficient (guinierAnalysis jsLog qs Is a b) = false ∧
    rgIsNaNOf (guinierAnalysis jsLog qs Is a b) =
      (slopeOf (guinierAnalysis jsLog qs Is a b)).map rgNaNOfSlope := by
  simp only [guinierAnalysis]
  rw [if_neg (by omega)]
  refine ⟨rfl, ?_⟩
  simp only [rgIsNaNOf, slopeOf, Option.map_some, Option.some.injEq]
  split
  · next heq => rw [heq]; rfl
  · next s heq => rw [heq]; rfl

/-- Witness for C3 (amended) at `q = [2,2,2]`, `I = [1,2,3]`: three
qualifying points whose `q` coincide, so the slope is the `NaN` quotient
`0/0` — exercising the `NaN`-slope branch of the conclusion. -/
theorem guinier_no_domain_error_witness :
    3 ≤ (guinierData (fun _ => 0) [2, 2, 2] [1, 2, 3] 0 10).length ∧
    (isInsufficient (guinierAnalysis (fun _ => 0) [2, 2, 2] [1, 2, 3] 0 10) = false ∧
     rgIsNaNOf (guinierAnalysis (fun _ => 0) [2, 2, 2] [1, 2, 3] 0 10) =
       (slopeOf (guinierAnalysis (fun _ => 0) [2, 2, 2] [1, 2, 3] 0 10)).map
         rgNaNOfSlope) :=
  ⟨by decide,
   guinier_no_domain_error (fun _ => 0) [2, 2, 2] [1, 2, 3] 0 10 (by decide)⟩

/-- On `q = [2,2,2]`, `I = [1,2,3]` (three qualifying points, all selected
`q` equal) the regression denominator `3·48 − 12² = 0` vanishes and so does
the numerator — in JavaScript both are exactly `0` (scaling by `4` is exact
in binary floating point), so `slope = 0/0 = NaN`, the intercept and `r2`
inherit the `NaN`, and `Rg = √(−3·NaN) = NaN`: the model reproduces this
error path for every interpretation of `Math.log`. -/
theorem guinierAnalysis_zero_variance :
    (fun L : ℚ → ℚ => guinierAnalysis L [2, 2, 2] [1, 2, 3] 0 10) =
      (fun _ => GuinierResult.success none none none 3 true) := by
  funext L
  have hdata : guinierData L [2, 2, 2] [1, 2, 3] 0 10 =
      [(4, L 1), (4, L 2), (4, L 3)] := by
    rw [guinierData_eq_zip]
    norm_num [List.zip_cons_cons, List.filterMap_cons]
  simp only [guinierAnalysis, hdata]
  norm_num

/-- **C3 (counterexample).** On `q = [1,2,3]`, `I = [1,1,1]`, window
`[0, 10]`: all three points qualify and the fitted slope is `0 ≥ 0` (for
every interpretation of `Math.log`, since the three `ln I` values coincide —
and exactly `0` in actual JavaScript, where `Math.log 1 = 0` and the
regression denominator is the nonzero `3·98 − 14² = 98`), yet the function
returns a success record (`.success`), not any distinct `DomainError` state:
the claimed error surfacing does not exist in the code.  (The `r2` field is
`NaN` here because `ssTot = 0`.) -/
theorem guinier_flat_slope_counterexample :
    (fun L : ℚ → ℚ => guinierAnalysis L [1, 2, 3] [1, 1, 1] 0 10) =
      (fun L => GuinierResult.success (some 0) (some (L 1)) none 3 false) := by
  funext L
  have hdata : guinierData L [1, 2, 3] [1, 1, 1] 0 10 =
      [(1, L 1), (4, L 1), (9, L 1)] := by
    rw [guinierData_eq_zip]
    norm_num [List.zip_cons_cons, List.filterMap_cons]
  simp only [guinierAnalysis, hdata]
  norm_num
  refine ⟨by ring, by ring, ?_, by linarith⟩
  intro h
  exfalso
  apply h
  ring

/-! ## Amino-acid table facts -/

theorem lookup_mem {l : List (Char × AminoAcid)} {c : Char} {aa : AminoAcid}
    (h : List.lookup c l = some aa) : (c, aa) ∈ l := by
  induction l with
  | nil => simp at h
  | cons p t ih =>
    rcases p with ⟨k, v⟩
    by_cases hc : c = k
    · subst hc
      simp [List.lookup] at h
      simp [h]
    · have hb : (c == k) = false := beq_eq_false_iff_ne.mpr hc
      simp [List.lookup, hb] at h
      exact List.mem_cons_of_mem _ (ih h)

/-- Every valid residue code is an upper-case ASCII letter fixed by
`toUpperCase`, and its table mass exceeds the water mass 18.015. -/
theorem amino_facts {c : Char} (h : isAmino c = true) :
    Char.toUpper c = c ∧ ('A' ≤ c ∧ c ≤ 'Z') ∧ WATER_MW < mwOf c := by
  rw [isAmino, Option.isSome_iff_exists] at h
  obtain ⟨aa, haa⟩ := h
  have hmw : mwOf c = aa.mw := by rw [mwOf, haa]; rfl
  rw [hmw]
  have hm := lookup_mem haa
  simp only [AMINO_ACIDS, List.mem_cons, List.not_mem_nil, or_false] at hm
  rcases hm with h | h | h | h | h | h | h | h | h | h |
    h | h | h | h | h | h | h | h | h | h <;>
    (injection h with h1 h2; subst h1; subst h2;
      refine ⟨by decide, by decide, by norm_num [WATER_MW]⟩)

/-! ## Molecular-weight computation: closed form -/

theorem mw_foldl (comp : List (Char × ℕ)) (init : ℚ × ℕ) :
    comp.foldl
      (fun (st : ℚ × ℕ) p =>
        match List.lookup p.1 AMINO_ACIDS with
        | some aa => (st.1 + aa.mw * p.2, st.2 + p.2)
        | none => st) init =
    (init.1 + (comp.map mwContrib).sum, init.2 + (comp.map resContrib).sum) := by
  induction comp generalizing init with
  | nil => simp
  | cons p t ih =>
    rw [List.foldl_cons, ih]
    rcases hl : List.lookup p.1 AMINO_ACIDS with _ | aa <;>
      simp [mwContrib, resContrib, hl, add_assoc]

theorem calcMW_formula (comp : List (Char × ℕ)) :
    calculateMolecularWeight comp = (comp.map mwContrib).sum -
      (if 1 < (comp.map resContrib).sum
       then (((comp.map resContrib).sum : ℚ) - 1) * WATER_MW else 0) := by
  rw [calculateMolecularWeight, mw_foldl]
  by_cases h : 1 < (comp.map resContrib).sum <;> simp [h]

theorem mwContrib_one {c : Char} (hc : isAmino c = true) : mwContrib (c, 1) = mwOf c := by
  rw [isAmino, Option.isSome_iff_exists] at hc
  obtain ⟨aa, haa⟩ := hc
  simp [mwContrib, mwOf, haa]

theorem resContrib_one {c : Char} (hc : isAmino c = true) : resContrib (c, 1) = 1 := by
  rw [isAmino, Option.isSome_iff_exists] at hc
  obtain ⟨aa, haa⟩ := hc
  simp [resContrib, haa]

theorem addChar_map_sum_mw (comp : List (Char × ℕ)) (c : Char) :
    ((addChar comp c).map mwContrib).sum = (comp.map mwContrib).sum + mwContrib (c, 1) := by
  induction comp with
  | nil => simp [addChar]
  | cons p t ih =>
    rw [addChar]
    by_cases h : p.1 = c
    · rw [if_pos h]
      subst h
      rcases hl : List.lookup p.1 AMINO_ACIDS with _ | aa <;>
        · simp only [List.map_cons, List.sum_cons, mwContrib, hl]
          push_cast
          ring
    · rw [if_neg h]
      simp only [List.map_cons, List.sum_cons, ih]
      ring

theorem addChar_map_sum_res (comp : List (Char × ℕ)) (c : Char) :
    ((addChar comp c).map resContrib).sum = (comp.map resContrib).sum + resContrib (c, 1) := by
  induction comp with
  | nil => simp [addChar]
  | cons p t ih =>
    rw [addChar]
    by_cases h : p.1 = c
    · rw [if_pos h]
      subst h
      rcases hl : List.lookup p.1 AMINO_ACIDS with _ | aa <;>
        · simp only [List.map_cons, List.sum_cons, resContrib, hl]
          omega
    · rw [if_neg h]
      simp only [List.map_cons, List.sum_cons, ih]
      omega

theorem buildComposition_sums (cs : List Char) (hval : ∀ x ∈ cs, isAmino x = true) :
    ((buildComposition cs).map mwContrib).sum = (cs.map mwOf).sum ∧
    ((buildComposition cs).map resContrib).sum = cs.length := by
  suffices haux : ∀ (cs : List Char) (comp : List (Char × ℕ)),
      (∀ x ∈ cs, isAmino x = true) →
      ((cs.foldl (fun comp c => if isAmino c then addChar comp c else comp) comp).map
          mwContrib).sum = (comp.map mwContrib).sum + (cs.map mwOf).sum ∧
      ((cs.foldl (fun comp c => if isAmino c then addChar comp c else comp) comp).map
          resContrib).sum = (comp.map resContrib).sum + cs.length by
    simpa [buildComposition] using haux cs [] hval
  intro cs
  induction cs with
  | nil => intro comp _; simp
  | cons c t ih =>
    intro comp hval
    have hc : isAmino c = true := hval c (by simp)
    rw [List.foldl_cons, if_pos hc]
    obtain ⟨ih1, ih2⟩ := ih (addChar comp c) (fun x hx => hval x (by simp [hx]))
    constructor
    · rw [ih1, addChar_map_sum_mw, mwContrib_one hc]
      simp only [List.map_cons, List.sum_cons]
      ring
    · rw [ih2, addChar_map_sum_res, resContrib_one hc]
      simp only [List.length_cons]
      omega

theorem buildComposition_append_valid (s : List Char) (c : Char)
    (hc : isAmino c = true) :
    buildComposition (s ++ [c]) = addChar (buildComposition s) c := by
  rw [buildComposition, List.foldl_append]
  simp [buildComposition, hc]

theorem cleanInput_of_valid (s : List Char) (hval : ∀ x ∈ s, isAmino x = true) :
    cleanInput s = s := by
  rw [cleanInput]
  have hmap : s.map Char.toUpper = s := by
    rw [List.map_congr_left fun x hx => (amino_facts (hval x hx)).1]
    exact List.map_id s
  rw [hmap]
  rw [List.filter_eq_self]
  intro x hx
  have h2 := (amino_facts (hval x hx)).2.1
  simp [h2.1, h2.2]

/-! ## C5: molecular weight and the water correction -/

/-- **C5.** For every composition, `calculateMolecularWeight` returns
`Σ(residue MW × count) − (totalResidues − 1) × 18.015` when
`totalResidues > 1` and performs no water subtraction otherwise; in
particular, for a single-residue sequence the molecular weight is exactly
that residue's table mass. -/
theorem calculateMolecularWeight_water_correction :
    (∀ comp : List (Char × ℕ), calculateMolecularWeight comp =
      (comp.map mwContrib).sum -
        (if 1 < (comp.map resContrib).sum
         then (((comp.map resContrib).sum : ℚ) - 1) * WATER_MW else 0)) ∧
    (∀ c : Char, isAmino c = true →
      calculateMolecularWeight (parseSequence [c]).composition = mwOf c) := by
  refine ⟨calcMW_formula, fun c hc => ?_⟩
  have hval : ∀ x ∈ [c], isAmino x = true := by simpa using hc
  have hcl : cleanInput [c] = [c] := cleanInput_of_valid _ hval
  have hcomp : (parseSequence [c]).composition = [(c, 1)] := by
    simp [parseSequence, hcl, buildComposition, hc, addChar]
  rw [hcomp, calcMW_formula]
  simp [mwContrib_one hc, resContrib_one hc]

/-- Witness for C5 at the single-residue sequence `"G"`. -/
theorem calculateMolecularWeight_water_correction_witness :
    isAmino 'G' = true ∧
    calculateMolecularWeight (parseSequence ['G']).composition = mwOf 'G' :=
  ⟨by decide, calculateMolecularWeight_water_correction.2 'G' (by decide)⟩

/-! ## C6: reported length and strict monotonicity in sequence length -/

/-- **C6.** For every non-empty sequence of valid residue codes, the reported
`length` equals the sequence's length, and appending one more valid residue
strictly increases the computed molecular weight (each table mass exceeds the
18.015 water correction). -/
theorem parseSequence_length_mw_monotone (s : List Char) (c : Char)
    (hne : s ≠ []) (hval : ∀ x ∈ s, isAmino x = true) (hc : isAmino c = true) :
    (parseSequence s).length = s.length ∧
    calculateMolecularWeight (parseSequence s).composition <
      calculateMolecularWeight (parseSequence (s ++ [c])).composition := by
  have hcl : cleanInput s = s := cleanInput_of_valid s hval
  have hval2 : ∀ x ∈ s ++ [c], isAmino x = true := by
    intro x hx
    rcases List.mem_append.mp hx with h | h
    · exact hval x h
    · simp at h; subst h; exact hc
  have hcl2 : cleanInput (s ++ [c]) = s ++ [c] := cleanInput_of_valid _ hval2
  constructor
  · rw [parseSequence]
    simp only [hcl]
    rw [List.filter_eq_self.mpr hval]
  · have hcomp1 : (parseSequence s).composition = buildComposition s := by
      simp [parseSequence, hcl]
    have hcomp2 : (parseSequence (s ++ [c])).composition =
        addChar (buildComposition s) c := by
      simp [parseSequence, hcl2, buildComposition_append_valid s c hc]
    obtain ⟨hS, hT⟩ := buildComposition_sums s hval
    rw [hcomp1, hcomp2, calcMW_formula, calcMW_formula,
      addChar_map_sum_mw, addChar_map_sum_res, hS, hT, mwContrib_one hc,
      resContrib_one hc]
    have hT1 : 1 ≤ s.length := by
      cases s with
      | nil => exact absurd rfl hne
      | cons a t => simp
    have hmw : WATER_MW < mwOf c := (amino_facts hc).2.2
    by_cases h1 : 1 < s.length
    · rw [if_pos h1, if_pos (by omega : 1 < s.length + 1)]
      push_cast
      linarith
    · have hlen1 : s.length = 1 := by omega
      rw [if_neg h1, if_pos (by omega : 1 < s.length + 1), hlen1]
      push_cast
      linarith

/-- Witness for C6 at `s = "A"`, appended residue `'G'`. -/
theorem parseSequence_length_mw_monotone_witness :
    (parseSequence ['A']).length = (['A'] : List Char).length ∧
    calculateMolecularWeight (parseSequence ['A']).composition <
      calculateMolecularWeight (parseSequence (['A'] ++ ['G'])).composition :=
  parseSequence_length_mw_monotone ['A'] 'G' (by decide) (by decide) (by decide)

/-! ## Deduplication of invalid characters -/

theorem jsDedup_aux (l : List Char) :
    ∀ acc : List Char, acc.Nodup →
      ((l.foldl (fun acc c => if acc.contains c then acc else acc ++ [c]) acc).Nodup ∧
       ∀ c, c ∈ l.foldl (fun acc c => if acc.contains c then acc else acc ++ [c]) acc ↔
         (c ∈ acc ∨ c ∈ l)) := by
  induction l with
  | nil => intro acc h; simp [h]
  | cons x t ih =>
    intro acc hacc
    rw [List.foldl_cons]
    by_cases hx : acc.contains x = true
    · rw [if_pos hx]
      have hmem : x ∈ acc := List.elem_iff.mp hx
      obtain ⟨hn, hm⟩ := ih acc hacc
      refine ⟨hn, fun c => ?_⟩
      rw [hm, List.mem_cons]
      constructor
      · tauto
      · rintro (h | rfl | h)
        · exact Or.inl h
        · exact Or.inl hmem
        · exact Or.inr h
    · rw [if_neg hx]
      have hxa : x ∉ acc := fun hmem => hx (List.elem_iff.mpr hmem)
      have hacc2 : (acc ++ [x]).Nodup := by
        rw [List.nodup_append]
        refine ⟨hacc, List.nodup_singleton x, ?_⟩
        intro a ha hb
        simp at hb
        subst hb
        exact hxa ha
      obtain ⟨hn, hm⟩ := ih (acc ++ [x]) hacc2
      refine ⟨hn, fun c => ?_⟩
      rw [hm, List.mem_append, List.mem_singleton, List.mem_cons]
      tauto

theorem jsDedup_nodup (l : List Char) : (jsDedup l).Nodup :=
  (jsDedup_aux l [] List.nodup_nil).1

theorem jsDedup_mem (l : List Char) (c : Char) : c ∈ jsDedup l ↔ c ∈ l := by
  have h := (jsDedup_aux l [] List.nodup_nil).2 c
  rw [jsDedup]
  rw [h]
  simp

/-! ## C9: failure messages of `analyzeProtein` -/

/-- **C9 (amended).** When the parse is invalid, `analyzeProtein` branches on
`length === 0` first: the unrecognized-character listing is produced only when
at least one valid residue is present; when no valid residue was found the
generic "enter a valid protein sequence" message is returned even if
unrecognized characters are present.  The listed characters are deduplicated
(each unrecognized character of the cleaned input appears exactly once). -/
theorem analyzeProtein_error_messages (s : List Char) :
    ((parseSequence s).isValid = false → (parseSequence s).length = 0 →
        analyzeProtein s = .error "請輸入有效的蛋白質序列" (parseSequence s)) ∧
    ((parseSequence s).isValid = false → (parseSequence s).length ≠ 0 →
        analyzeProtein s = .error (String.append "包含無效字符: "
          (String.intercalate ", " ((parseSequence s).invalidChars.map Char.toString)))
          (parseSequence s)) ∧
    (parseSequence s).invalidChars.Nodup ∧
    (∀ c : Char, c ∈ (parseSequence s).invalidChars ↔
      (c ∈ (parseSequence s).sequence ∧ isAmino c = false)) := by
  refine ⟨?_, ?_, ?_, ?_⟩
  · intro hinv h0
    rw [analyzeProtein]
    rw [if_neg (by simp [hinv])]
    rw [if_pos h0]
  · intro hinv h0
    rw [analyzeProtein]
    rw [if_neg (by simp [hinv])]
    rw [if_neg h0]
  · have : (parseSequence s).invalidChars =
        jsDedup ((cleanInput s).filter fun c => !(isAmino c)) := rfl
    rw [this]
    exact jsDedup_nodup _
  · intro c
    have : (parseSequence s).invalidChars =
        jsDedup ((cleanInput s).filter fun c => !(isAmino c)) := rfl
    rw [this, jsDedup_mem, List.mem_filter]
    simp [parseSequence]

/-- Witness for C9 (amended) at the input `"AB"`: one valid residue `A`, one
unrecognized character `B`, so the listing branch is taken. -/
theorem analyzeProtein_error_messages_witness :
    analyzeProtein ['A', 'B'] = .error (String.append "包含無效字符: "
      (String.intercalate ", "
        ((parseSequence ['A', 'B']).invalidChars.map Char.toString)))
      (parseSequence ['A', 'B']) :=
  (analyzeProtein_error_messages ['A', 'B']).2.1 (by decide) (by decide)

/-- **C9 (counterexample).** On the input `"B"` the cleaned input contains the
unrecognized character `B`, yet the failure message is the generic
no-valid-residues message (because `length === 0` is checked first), not a
listing of the offending characters — refuting the claim that the message
lists the offending characters whenever one is present. -/
theorem analyzeProtein_generic_message_counterexample :
    analyzeProtein ['B'] = .error "請輸入有效的蛋白質序列" (parseSequence ['B']) ∧
    (parseSequence ['B']).invalidChars = ['B'] := by
  constructor
  · rfl
  · rfl

/-! ## C8: the detector-exposure table -/

theorem hplcHoldTime1_eq_spec (p : HPLCParams) : hplcHoldTime1 p = specHold12 p := by
  rw [hplcHoldTime1, hplcJ22, specHold12]
  rcases h : hplcM20 p with _ | m
  · simp [nnum]
  · simp [nnum, ndiv]
    rw [show (m * 60 - 40 - 40 - 40 - 41) / 4 - 15 = (m * 60 - 120 - 41) / 4 - 15
      from by ring]

theorem hplcHoldTime3_eq_double (p : HPLCParams) :
    hplcHoldTime3 p = (hplcHoldTime1 p).map fun h => 2 * h + 1 := by
  rw [hplcHoldTime3]
  rcases h : hplcHoldTime1 p with _ | x
  · simp [nnum]
  · simp [nnum]
    ring

theorem hplcG25_eq_specFrame4 (p : HPLCParams) : hplcG25 p = specFrame4 p := by
  rw [hplcG25, specFrame4, hplcXrayDuration]
  rcases h : nsub (hplcM22 p) (hplcM21 p) with _ | d
  · simp [nnum]
  · simp [nnum, ndiv]

/-- **C8.** In the detector-exposure table of the HPLC-SAXS result, the step
exposures are `(40, 40, 40, 2, 2, 4)` seconds; the holds of steps 1 and 2 both
equal `round((transition breakpoint × 60 − 120 − 41)/4 − 15)` floored at 1
(`specHold12`, computed from the transition breakpoint M20); the step-3 hold
is twice the step-1–2 hold plus 1; the step-4 frame count is
`round(collection duration × 60 / 2 + 90)` (`specFrame4`, computed from the
collection duration M22 − M21); and the remaining holds are the constants
100, 1, 1.  This holds for every input combination, present or missing. -/
theorem hplc_detector_exposure_table (p : HPLCParams) :
    (hplcResult p).detectorSettings.map DetectorStep.exposure = [40, 40, 40, 2, 2, 4] ∧
    (hplcResult p).detectorSettings.map DetectorStep.hold =
      [specHold12 p, specHold12 p, (specHold12 p).map (fun h => 2 * h + 1),
       some 100, some 1, some 1] ∧
    (hplcResult p).detectorSettings.map DetectorStep.frame =
      [some 1, some 1, some 1, specFrame4 p, some 1, some 1] := by
  refine ⟨rfl, ?_, ?_⟩
  · simp [hplcResult, nnum, hplcHoldTime1_eq_spec, hplcHoldTime3_eq_double]
  · simp [hplcResult, nnum, hplcG25_eq_specFrame4]
